import Mathlib

/-!
Verification of the `stock_supply` module (tryton/stock_supply).

Shallow embedding of the four source files:
  * `shipment.py`  — `ShipmentInternal.generate_internal_shipment`, the
    replenishment planner (per-day simulation, grouping into request
    shipments, fixed-point recursion with `clean=False`);
  * `order_point.py` — the `OrderPoint` model with its field domains and
    the `check_uniqueness` / `check_concurrent_internal` validations;
  * `stock.py` — the `Supply` wizard (`transition_create_`,
    `generate_internal`, transit-split removal);
  * `ir.py` — cron registration (no algorithmic content).

Conventions of the embedding:
  * database rows are Lean structures; record ids, product ids, company ids
    and location ids are `Nat`;
  * quantities (`Float` fields in the source) are modelled as `Int`: the
    planner only compares (`<`) and subtracts them and the validations only
    compare them, so ordered-ring reasoning is exact for the integral values
    used throughout;
  * calendar dates are modelled as `Nat` (days since an epoch); the source
    steps `date += datetime.timedelta(1)` which becomes `+ 1`;
  * the external forecast query `Product.products_by_location` (trytond
    stock module) enters the planner as an explicit function argument
    `pbl : date → location → product → quantity`;
  * a raised `ValidationError` is modelled as a check function returning
    `true`.
-/

/-- A `stock.location` row as the planner reads it: its id and the optional
`provisioning_location` used by the fallback policy
(shipment.py ll. 80-83, 112-114). -/
structure Location where
  id : Nat
  provisioning_location : Option Nat
deriving DecidableEq, Repr

/-- An `internal`-type order point as the planner reads it
(shipment.py ll. 67-79, 108-120): the planner dereferences `min_quantity`,
`max_quantity` and `provisioning_location` unconditionally on these rows. -/
structure IOP where
  product : Nat
  storage_location : Nat
  provisioning_location : Nat
  min_quantity : Int
  max_quantity : Int
deriving DecidableEq, Repr

/-- A `stock.move` line (shipment.py ll. 142-150): product, quantity,
endpoints and planned date.  The `uom`/`company` fields are constant per
product/user and carry no algorithmic content, so they are omitted. -/
structure MoveRec where
  from_location : Nat
  to_location : Nat
  planned_date : Nat
  product : Nat
  quantity : Int
deriving DecidableEq, Repr

/-- A `stock.shipment.internal` row (shipment.py ll. 131-154): endpoints,
planned date, state and owned moves.  `transit_location` is the derived
transit routing point of the base stock module (read at shipment.py l. 163
and stock.py l. 81). -/
structure Shipment where
  from_location : Nat
  to_location : Nat
  planned_date : Nat
  state : String
  transit_location : Option Nat
  moves : List MoveRec
deriving DecidableEq, Repr

/-- The `product2op` dict built at shipment.py ll. 72-79, keyed by
`(storage_location, product)`.  Later entries overwrite earlier ones,
hence `getLast?`. -/
def product2op (ops : List IOP) (loc product : Nat) : Option IOP :=
  (ops.filter (fun op => op.storage_location == loc && op.product == product)).getLast?

/-- The value set of the `id2location` dict (shipment.py ll. 71-83): storage
locations of internal order points plus every location that declares a
`provisioning_location`. -/
def plannerLocations (ops : List IOP) (locTable : List Location) : List Location :=
  locTable.filter (fun l =>
    ops.any (fun op => op.storage_location == l.id) || l.provisioning_location.isSome)

/-- The `provisioned` search result (shipment.py ll. 80-82). -/
def provisionedLocs (locTable : List Location) : List Location :=
  locTable.filter (fun l => l.provisioning_location.isSome)

/-- The `product_ids` universe (shipment.py ll. 86-93): all goods/assets
products when some location has a provisioning fallback, otherwise only the
products of the internal order points. -/
def productIds (ops : List IOP) (locTable : List Location) (allGoods : List Nat) : List Nat :=
  if provisionedLocs locTable ≠ [] then allGoods
  else (ops.map (fun op => op.product)).dedup

/-- The body of the planner's per-location/per-product step
(shipment.py ll. 106-120): read the forecast quantity, resolve the policy
(explicit order point, else the location-level `provisioning_location`
fallback with min = max = 0, else skip), and record a move of `max - qty`
whenever `qty < min`. -/
def dayMoveOf (ops : List IOP) (location : Location) (pbl : Nat → Nat → Int)
    (date pid : Nat) : Option MoveRec :=
  let qty := pbl location.id pid
  match product2op ops location.id pid with
  | some op =>
      if qty < op.min_quantity then
        some { from_location := op.provisioning_location, to_location := location.id,
               planned_date := date, product := pid,
               quantity := op.max_quantity - qty }
      else none
  | none =>
      match location.provisioning_location with
      | some p =>
          if qty < 0 then
            some { from_location := p, to_location := location.id,
                   planned_date := date, product := pid, quantity := 0 - qty }
          else none
      | none => none

/-- One simulated day of the planner (shipment.py ll. 103-120): run the
per-pair step over every monitored location and candidate product. -/
def dayMoves (ops : List IOP) (locs : List Location) (productUniverse : List Nat)
    (pbl : Nat → Nat → Int) (date : Nat) : List MoveRec :=
  locs.flatMap (fun location =>
    productUniverse.filterMap (dayMoveOf ops location pbl date))

/-- Grouping of one day's moves into request shipments
(shipment.py ll. 122-154): one shipment per distinct `(from, to)` pair,
planned on the day, in state `request`, owning the group's moves. -/
def dayShipments (date : Nat) (mvs : List MoveRec) : List Shipment :=
  ((mvs.map (fun m => (m.from_location, m.to_location))).dedup).map (fun key =>
    { from_location := key.1, to_location := key.2, planned_date := date,
      state := "request", transit_location := none,
      moves := mvs.filter (fun m =>
        m.from_location == key.1 && m.to_location == key.2) })

/-- One full pass of `generate_internal_shipment` (shipment.py ll. 95-155):
walk the dates `today .. today + lead` inclusive and collect each day's
request shipments. -/
def generatePass (ops : List IOP) (locTable : List Location) (allGoods : List Nat)
    (pbl : Nat → Nat → Nat → Int) (today lead : Nat) : List Shipment :=
  (List.range (lead + 1)).flatMap (fun k =>
    dayShipments (today + k)
      (dayMoves ops (plannerLocations ops locTable) (productIds ops locTable allGoods)
        (pbl (today + k)) (today + k)))

/-- Referential well-formedness of the planner inputs, from the field
domains declared in order_point.py: every internal order point's storage
location is a real location row, and its product is a goods-type product
(`('type', '=', 'goods')` on the `product` field), hence a member of the
goods/assets universe the planner may simulate. -/
def PlannerWF (ops : List IOP) (locTable : List Location) (allGoods : List Nat) : Prop :=
  (∀ op ∈ ops, ∃ l ∈ locTable, l.id = op.storage_location) ∧
  (∀ op ∈ ops, op.product ∈ allGoods)

/-! ### Basic lemmas about the planner pipeline -/

lemma product2op_mem {ops : List IOP} {L P : Nat} {op : IOP}
    (h : product2op ops L P = some op) :
    op ∈ ops ∧ op.storage_location = L ∧ op.product = P := by
  unfold product2op at h
  have hmem : op ∈ ops.filter (fun op => op.storage_location == L && op.product == P) := by
    rcases List.mem_getLast?_eq_getLast (Option.mem_def.mpr h) with ⟨hne, heq⟩
    rw [heq]
    exact List.getLast_mem hne
  rcases List.mem_filter.mp hmem with ⟨h1, h2⟩
  simp only [Bool.and_eq_true, beq_iff_eq] at h2
  exact ⟨h1, h2.1, h2.2⟩

lemma mem_dayMoves {ops locs productUniverse pbl date} {m : MoveRec} :
    m ∈ dayMoves ops locs productUniverse pbl date ↔
      ∃ l ∈ locs, ∃ pid ∈ productUniverse, dayMoveOf ops l pbl date pid = some m := by
  simp [dayMoves, List.mem_flatMap, List.mem_filterMap]

lemma dayMoveOf_fields {ops location pbl date pid} {m : MoveRec}
    (h : dayMoveOf ops location pbl date pid = some m) :
    m.to_location = location.id ∧ m.product = pid ∧ m.planned_date = date := by
  unfold dayMoveOf at h
  rcases hop : product2op ops location.id pid with _ | op
  · simp only [hop] at h
    rcases hp : location.provisioning_location with _ | p
    · simp [hp] at h
    · simp only [hp] at h
      by_cases hq : pbl location.id pid < 0
      · rw [if_pos hq] at h
        cases h; exact ⟨rfl, rfl, rfl⟩
      · rw [if_neg hq] at h; cases h
  · simp only [hop] at h
    by_cases hq : pbl location.id pid < op.min_quantity
    · rw [if_pos hq] at h
      cases h; exact ⟨rfl, rfl, rfl⟩
    · rw [if_neg hq] at h; cases h

lemma mem_dayShipments_planned_date {date mvs} {s : Shipment}
    (hs : s ∈ dayShipments date mvs) : s.planned_date = date ∧ s.state = "request" := by
  unfold dayShipments at hs
  rcases List.mem_map.mp hs with ⟨key, _, rfl⟩
  exact ⟨rfl, rfl⟩

lemma mem_moves_dayShipments {date mvs} {s : Shipment} {m : MoveRec}
    (hs : s ∈ dayShipments date mvs) (hm : m ∈ s.moves) :
    m ∈ mvs ∧ m.from_location = s.from_location ∧ m.to_location = s.to_location := by
  unfold dayShipments at hs
  rcases List.mem_map.mp hs with ⟨key, _, rfl⟩
  simp only [List.mem_filter, Bool.and_eq_true, beq_iff_eq] at hm
  exact ⟨hm.1, hm.2.1, hm.2.2⟩

lemma mem_generatePass {ops locTable allGoods pbl today lead} {s : Shipment} :
    s ∈ generatePass ops locTable allGoods pbl today lead ↔
      ∃ k < lead + 1, s ∈ dayShipments (today + k)
        (dayMoves ops (plannerLocations ops locTable) (productIds ops locTable allGoods)
          (pbl (today + k)) (today + k)) := by
  simp [generatePass, List.mem_flatMap, List.mem_range]

/-- If a move of day `date` exists in `mvs`, the grouped shipment for its
`(from, to)` pair exists and contains it. -/
lemma dayShipments_cover {date} {mvs : List MoveRec} {m : MoveRec} (hm : m ∈ mvs) :
    ∃ s ∈ dayShipments date mvs, s.from_location = m.from_location ∧
      s.to_location = m.to_location ∧ s.planned_date = date ∧ m ∈ s.moves := by
  refine ⟨{ from_location := m.from_location, to_location := m.to_location,
            planned_date := date, state := "request", transit_location := none,
            moves := mvs.filter (fun m' =>
              m'.from_location == m.from_location && m'.to_location == m.to_location) },
    ?_, rfl, rfl, rfl, ?_⟩
  · unfold dayShipments
    apply List.mem_map.mpr
    refine ⟨(m.from_location, m.to_location), ?_, rfl⟩
    exact List.mem_dedup.mpr (List.mem_map.mpr ⟨m, hm, rfl⟩)
  · exact List.mem_filter.mpr ⟨hm, by simp⟩

/-! ### Claim C1 -/

/-- Claim C1: for every day `d` in the inclusive horizon
`[today, today + lead]` and every (location, product) pair governed by an
explicit internal order point, the planner schedules a move on day `d` iff
the forecast quantity as of `d` is strictly below the policy's
`min_quantity`; the scheduled move has quantity `max_quantity - forecast`,
source the policy's provisioning location, destination the monitored
location, and planned date `d`.  Forecast at or above min (including zero
or negative deficit) generates no move. -/
theorem c1_internal_point_move_iff_deficit
    (ops : List IOP) (locTable : List Location) (allGoods : List Nat)
    (pbl : Nat → Nat → Nat → Int) (today lead : Nat)
    (hwf : PlannerWF ops locTable allGoods)
    (L P d : Nat) (op : IOP) (hop : product2op ops L P = some op)
    (hd1 : today ≤ d) (hd2 : d ≤ today + lead) :
    ((∃ s ∈ generatePass ops locTable allGoods pbl today lead,
        s.planned_date = d ∧ ∃ m ∈ s.moves, m.to_location = L ∧ m.product = P)
      ↔ pbl d L P < op.min_quantity)
    ∧ (pbl d L P < op.min_quantity →
        ∃ s ∈ generatePass ops locTable allGoods pbl today lead,
          s.planned_date = d ∧ s.from_location = op.provisioning_location ∧
          s.to_location = L ∧
          MoveRec.mk op.provisioning_location L d P (op.max_quantity - pbl d L P)
            ∈ s.moves) := by
  obtain ⟨hopmem, hst, hprod⟩ := product2op_mem hop
  have hexist : pbl d L P < op.min_quantity →
      ∃ s ∈ generatePass ops locTable allGoods pbl today lead,
        s.planned_date = d ∧ s.from_location = op.provisioning_location ∧
        s.to_location = L ∧
        MoveRec.mk op.provisioning_location L d P (op.max_quantity - pbl d L P)
          ∈ s.moves := by
    intro h
    obtain ⟨l0, hl0mem, hl0id⟩ := hwf.1 op hopmem
    have hl0id' : l0.id = L := by rw [hl0id, hst]
    have hl0 : l0 ∈ plannerLocations ops locTable := by
      refine List.mem_filter.mpr ⟨hl0mem, ?_⟩
      have hany : (ops.any fun o => o.storage_location == l0.id) = true :=
        List.any_eq_true.mpr ⟨op, hopmem, beq_iff_eq.mpr (hst.trans hl0id'.symm)⟩
      simp [hany]
    have hP : P ∈ productIds ops locTable allGoods := by
      unfold productIds
      split
      · rw [← hprod]; exact hwf.2 op hopmem
      · exact List.mem_dedup.mpr (List.mem_map.mpr ⟨op, hopmem, hprod⟩)
    have hdm : dayMoveOf ops l0 (pbl d) d P =
        some (MoveRec.mk op.provisioning_location L d P (op.max_quantity - pbl d L P)) := by
      unfold dayMoveOf
      simp only [hl0id', hop]
      rw [if_pos h]
    have hmv : MoveRec.mk op.provisioning_location L d P (op.max_quantity - pbl d L P)
        ∈ dayMoves ops (plannerLocations ops locTable) (productIds ops locTable allGoods)
          (pbl d) d :=
      mem_dayMoves.mpr ⟨l0, hl0, P, hP, hdm⟩
    obtain ⟨s, hs, hsf, hst', hsd, hsm⟩ := dayShipments_cover hmv
    refine ⟨s, ?_, hsd, hsf, hst', hsm⟩
    apply mem_generatePass.mpr
    refine ⟨d - today, by omega, ?_⟩
    have hdk : today + (d - today) = d := by omega
    rw [hdk]
    exact hs
  constructor
  · constructor
    · rintro ⟨s, hs, hsd, m, hm, hmL, hmP⟩
      obtain ⟨k, hk, hsk⟩ := mem_generatePass.mp hs
      obtain ⟨hpd, -⟩ := mem_dayShipments_planned_date hsk
      have hkd : today + k = d := by rw [← hpd, hsd]
      obtain ⟨hmvs, -, -⟩ := mem_moves_dayShipments hsk hm
      obtain ⟨l, hl, pid, hpid, hdm⟩ := mem_dayMoves.mp hmvs
      obtain ⟨hto, hpr, -⟩ := dayMoveOf_fields hdm
      have hlid : l.id = L := by rw [← hto, hmL]
      have hpidP : pid = P := by rw [← hpr, hmP]
      unfold dayMoveOf at hdm
      rw [hlid, hpidP, hkd] at hdm
      simp only [hop] at hdm
      by_cases hq : pbl d L P < op.min_quantity
      · exact hq
      · rw [if_neg hq] at hdm
        cases hdm
    · intro h
      obtain ⟨s, hs, hsd, hsf, hst', hsm⟩ := hexist h
      exact ⟨s, hs, hsd,
        MoveRec.mk op.provisioning_location L d P (op.max_quantity - pbl d L P),
        hsm, rfl, rfl⟩
  · exact hexist

/-- Concrete planner inputs for the claim witnesses: one internal order
point monitoring location 10 (product 1, min 5, max 20, provisioned from
location 20). -/
def opW : IOP :=
  { product := 1, storage_location := 10, provisioning_location := 20,
    min_quantity := 5, max_quantity := 20 }

def opsW : List IOP := [opW]

def locsW : List Location := [⟨10, none⟩, ⟨20, none⟩]

def pblW : Nat → Nat → Nat → Int := fun _ _ _ => 3

theorem c1_internal_point_move_iff_deficit_witness :
    (PlannerWF opsW locsW [1] ∧ product2op opsW 10 1 = some opW ∧
      0 ≤ 0 ∧ 0 ≤ 0 + 0) ∧
    (((∃ s ∈ generatePass opsW locsW [1] pblW 0 0,
        s.planned_date = 0 ∧ ∃ m ∈ s.moves, m.to_location = 10 ∧ m.product = 1)
      ↔ pblW 0 10 1 < opW.min_quantity)
    ∧ (pblW 0 10 1 < opW.min_quantity →
        ∃ s ∈ generatePass opsW locsW [1] pblW 0 0,
          s.planned_date = 0 ∧ s.from_location = opW.provisioning_location ∧
          s.to_location = 10 ∧
          MoveRec.mk opW.provisioning_location 10 0 1
            (opW.max_quantity - pblW 0 10 1) ∈ s.moves)) :=
  ⟨⟨⟨by decide, by decide⟩, by decide, by decide, by decide⟩,
    c1_internal_point_move_iff_deficit opsW locsW [1] pblW 0 0
      ⟨by decide, by decide⟩ 10 1 0 opW (by decide) (by decide) (by decide)⟩

/-! ### Claim C8 -/

/-- Claim C8: a location with a `provisioning_location` but no explicit
order point for a product uses the fallback thresholds min = 0 and max = 0:
a move from the location's provisioning location is generated iff the
forecast is strictly negative, with quantity exactly the negated forecast;
a location with neither an order point nor a provisioning location is
skipped silently (never any move for the pair; the planner raises no
error — it is a total function). -/
theorem c8_fallback_drains_deficit
    (ops : List IOP) (locTable : List Location) (allGoods : List Nat)
    (pbl : Nat → Nat → Nat → Int) (today lead : Nat)
    (hnd : (locTable.map Location.id).Nodup)
    (l : Location) (hl : l ∈ locTable) (P d : Nat)
    (hop : product2op ops l.id P = none)
    (hP : P ∈ allGoods)
    (hd1 : today ≤ d) (hd2 : d ≤ today + lead) :
    (∀ pv, l.provisioning_location = some pv →
      (((∃ s ∈ generatePass ops locTable allGoods pbl today lead,
          s.planned_date = d ∧ ∃ m ∈ s.moves, m.to_location = l.id ∧ m.product = P)
        ↔ pbl d l.id P < 0)
      ∧ (pbl d l.id P < 0 →
          ∃ s ∈ generatePass ops locTable allGoods pbl today lead,
            s.planned_date = d ∧ s.from_location = pv ∧ s.to_location = l.id ∧
            MoveRec.mk pv l.id d P (0 - pbl d l.id P) ∈ s.moves)))
    ∧ (l.provisioning_location = none →
        ¬ ∃ s ∈ generatePass ops locTable allGoods pbl today lead,
            ∃ m ∈ s.moves, m.to_location = l.id ∧ m.product = P) := by
  have hforward : ∀ (m : MoveRec) (s : Shipment),
      s ∈ generatePass ops locTable allGoods pbl today lead → m ∈ s.moves →
      m.to_location = l.id → m.product = P →
      ∃ k < lead + 1, s.planned_date = today + k ∧
        dayMoveOf ops l (pbl (today + k)) (today + k) P = some m := by
    intro m s hs hm hmL hmP
    obtain ⟨k, hk, hsk⟩ := mem_generatePass.mp hs
    obtain ⟨hpd, -⟩ := mem_dayShipments_planned_date hsk
    obtain ⟨hmvs, -, -⟩ := mem_moves_dayShipments hsk hm
    obtain ⟨l', hl', pid, hpid, hdm⟩ := mem_dayMoves.mp hmvs
    obtain ⟨hto, hpr, -⟩ := dayMoveOf_fields hdm
    have hl'mem : l' ∈ locTable := (List.mem_filter.mp hl').1
    have hl'id : l'.id = l.id := by rw [← hto, hmL]
    have hll : l' = l := List.inj_on_of_nodup_map hnd hl'mem hl hl'id
    have hpidP : pid = P := by rw [← hpr, hmP]
    subst hll hpidP
    exact ⟨k, hk, hpd, hdm⟩
  constructor
  · intro pv hpv
    have hexist : pbl d l.id P < 0 →
        ∃ s ∈ generatePass ops locTable allGoods pbl today lead,
          s.planned_date = d ∧ s.from_location = pv ∧ s.to_location = l.id ∧
          MoveRec.mk pv l.id d P (0 - pbl d l.id P) ∈ s.moves := by
      intro h
      have hlp : l ∈ plannerLocations ops locTable := by
        refine List.mem_filter.mpr ⟨hl, ?_⟩
        simp [hpv]
      have hprovne : l ∈ provisionedLocs locTable := by
        refine List.mem_filter.mpr ⟨hl, ?_⟩
        simp [hpv]
      have hPU : P ∈ productIds ops locTable allGoods := by
        unfold productIds
        split
        · exact hP
        · next hcon => exact absurd (List.ne_nil_of_mem hprovne) hcon
      have hdm : dayMoveOf ops l (pbl d) d P =
          some (MoveRec.mk pv l.id d P (0 - pbl d l.id P)) := by
        unfold dayMoveOf
        simp only [hop, hpv]
        rw [if_pos h]
      have hmv : MoveRec.mk pv l.id d P (0 - pbl d l.id P)
          ∈ dayMoves ops (plannerLocations ops locTable) (productIds ops locTable allGoods)
            (pbl d) d :=
        mem_dayMoves.mpr ⟨l, hlp, P, hPU, hdm⟩
      obtain ⟨s, hs, hsf, hst', hsd, hsm⟩ := dayShipments_cover hmv
      refine ⟨s, ?_, hsd, hsf, hst', hsm⟩
      apply mem_generatePass.mpr
      refine ⟨d - today, by omega, ?_⟩
      have hdk : today + (d - today) = d := by omega
      rw [hdk]
      exact hs
    refine ⟨⟨?_, fun h => ?_⟩, hexist⟩
    · rintro ⟨s, hs, hsd, m, hm, hmL, hmP⟩
      obtain ⟨k, hk, hpd, hdm⟩ := hforward m s hs hm hmL hmP
      have hkd : today + k = d := by rw [← hpd, hsd]
      rw [hkd] at hdm
      unfold dayMoveOf at hdm
      simp only [hop, hpv] at hdm
      by_cases hq : pbl d l.id P < 0
      · exact hq
      · rw [if_neg hq] at hdm
        cases hdm
    · obtain ⟨s, hs, hsd, -, -, hsm⟩ := hexist h
      exact ⟨s, hs, hsd, _, hsm, rfl, rfl⟩
  · intro hnone
    rintro ⟨s, hs, m, hm, hmL, hmP⟩
    obtain ⟨k, -, -, hdm⟩ := hforward m s hs hm hmL hmP
    unfold dayMoveOf at hdm
    simp [hop, hnone] at hdm

def locW8 : Location := ⟨10, some 20⟩

def locsW8 : List Location := [locW8, ⟨20, none⟩]

def pblW8 : Nat → Nat → Nat → Int := fun _ _ _ => -3

theorem c8_fallback_drains_deficit_witness :
    ((locsW8.map Location.id).Nodup ∧ locW8 ∈ locsW8 ∧
      product2op [] locW8.id 1 = none ∧ 1 ∈ [1]) ∧
    ((∀ pv, locW8.provisioning_location = some pv →
      (((∃ s ∈ generatePass [] locsW8 [1] pblW8 0 0,
          s.planned_date = 0 ∧ ∃ m ∈ s.moves, m.to_location = locW8.id ∧ m.product = 1)
        ↔ pblW8 0 locW8.id 1 < 0)
      ∧ (pblW8 0 locW8.id 1 < 0 →
          ∃ s ∈ generatePass [] locsW8 [1] pblW8 0 0,
            s.planned_date = 0 ∧ s.from_location = pv ∧ s.to_location = locW8.id ∧
            MoveRec.mk pv locW8.id 0 1 (0 - pblW8 0 locW8.id 1) ∈ s.moves)))
    ∧ (locW8.provisioning_location = none →
        ¬ ∃ s ∈ generatePass [] locsW8 [1] pblW8 0 0,
            ∃ m ∈ s.moves, m.to_location = locW8.id ∧ m.product = 1)) :=
  ⟨⟨by decide, by decide, by decide, by decide⟩,
    c8_fallback_drains_deficit [] locsW8 [1] pblW8 0 0 (by decide) locW8 (by decide)
      1 0 (by decide) (by decide) (by decide) (by decide)⟩

/-! ### The OrderPoint model and its validations (order_point.py) -/

/-- The `type` Selection field of an order point
(order_point.py ll. 66-69). -/
inductive OPType where
  | internal
  | purchase
deriving DecidableEq, Repr

/-- A `stock.order_point` row (order_point.py ll. 22-106).  Optional
Many2One and Float fields are `Option`-valued; `target_quantity` is a
required field. -/
structure OP where
  id : Nat
  opType : OPType
  product : Nat
  warehouse_location : Option Nat
  storage_location : Option Nat
  provisioning_location : Option Nat
  overflowing_location : Option Nat
  min_quantity : Option Int
  target_quantity : Int
  max_quantity : Option Int
  company : Nat
deriving DecidableEq, Repr

/-- `_type2field` applied to a row (order_point.py ll. 181-190, 223-227):
the monitored-location field selected by an order point's type. -/
def fieldOf (x : OP) (t : OPType) : Option Nat :=
  match t with
  | .purchase => x.warehouse_location
  | .internal => x.storage_location

/-- The derived `location` field (order_point.py ll. 223-227). -/
def monitoredLocation (x : OP) : Option Nat :=
  fieldOf x x.opType

/-- One disjunct of the `check_uniqueness` search query
(order_point.py ll. 199-208): a database row clashing with the validated
order point `op`.  `getattr(op, field).id` is a concrete id (the field is
required for the row's type), so the comparison is id-to-id. -/
def uniqClause (op x : OP) : Bool :=
  x.product == op.product &&
  (match fieldOf op op.opType with
   | some v => fieldOf x op.opType == some v
   | none => false) &&
  x.id != op.id &&
  x.company == op.company

/-- `OrderPoint.check_uniqueness` (order_point.py ll. 192-211): `true` means
the search found a clashing row and `OrderPointValidationError` is raised. -/
def check_uniqueness (db orders : List OP) : Bool :=
  orders.any (fun op => db.any (fun x => uniqClause op x))

/-- The two directional location roles of the concurrency check
(order_point.py ll. 161-162). -/
inductive Role where
  | provisioning
  | overflowing
deriving DecidableEq, Repr

/-- `getattr(op, location_name)` for a role. -/
def roleField (x : OP) (r : Role) : Option Nat :=
  match r with
  | .provisioning => x.provisioning_location
  | .overflowing => x.overflowing_location

/-- One disjunct of the `check_concurrent_internal` query for a role
(order_point.py ll. 167-174): a database row whose role-location is the
validated point's storage location and whose storage location is the
validated point's role-location, on the same product and company,
of internal type. -/
def concClause (op x : OP) (r : Role) : Bool :=
  x.product == op.product &&
  (match op.storage_location with
   | some s => roleField x r == some s
   | none => false) &&
  (match roleField op r with
   | some p => x.storage_location == some p
   | none => false) &&
  x.company == op.company &&
  x.opType == OPType.internal

/-- `OrderPoint.check_concurrent_internal` (order_point.py ll. 147-179):
`internals` re-reads the validated records from the database by id and
keeps the internal ones; for each role a single OR-search is run over the
points whose role-location is set; `true` means some search matched and
`OrderPointValidationError` is raised. -/
def check_concurrent_internal (db orders : List OP) : Bool :=
  let internals := db.filter (fun o =>
    orders.any (fun p => p.id == o.id) && o.opType == OPType.internal)
  [Role.provisioning, Role.overflowing].any (fun r =>
    internals.any (fun op =>
      (roleField op r).isSome && db.any (fun x => concClause op x r)))

/-- `OrderPoint.validate` (order_point.py ll. 141-145): runs the
concurrency check and the uniqueness check; `true` means a
`ValidationError` is raised (the write is blocked). -/
def validateRaises (db orders : List OP) : Bool :=
  check_concurrent_internal db orders || check_uniqueness db orders

/-- The declared domain of `min_quantity` (order_point.py ll. 76-79):
either unset, or at most `target_quantity`. -/
def minQuantityDomain (op : OP) : Bool :=
  match op.min_quantity with
  | none => true
  | some m => m ≤ op.target_quantity

/-- The declared domain of `target_quantity` (order_point.py ll. 82-91). -/
def targetQuantityDomain (op : OP) : Bool :=
  (match op.min_quantity with
   | none => true
   | some m => m ≤ op.target_quantity) &&
  (match op.max_quantity with
   | none => true
   | some M => op.target_quantity ≤ M)

/-- The declared domain of `max_quantity` (order_point.py ll. 97-100):
either unset, or at least `target_quantity`. -/
def maxQuantityDomain (op : OP) : Bool :=
  match op.max_quantity with
  | none => true
  | some M => op.target_quantity ≤ M

/-- Field-domain validation of the three quantity fields, as the storage
layer checks the declared domains on every save. -/
def boundsDomainOk (op : OP) : Bool :=
  minQuantityDomain op && targetQuantityDomain op && maxQuantityDomain op

/-- Location-type well-formedness from the declared Many2One domains
(order_point.py ll. 34-47) and the `states` required-conditions: a purchase
point has its (required) `warehouse_location` on a warehouse-type location,
an internal point has its (required) `storage_location` on a storage-type
location.  `kind` gives each location's type. -/
def opLocWF (kind : Nat → String) (x : OP) : Prop :=
  (x.opType = OPType.purchase →
    ∃ w, x.warehouse_location = some w ∧ kind w = "warehouse") ∧
  (x.opType = OPType.internal →
    ∃ s, x.storage_location = some s ∧ kind s = "storage")

/-! ### Claim C4 -/

/-- Claim C4: two order points with identical (product, monitored-location,
company) — monitored location being `warehouse_location` for type purchase
and `storage_location` for type internal — cannot coexist: validating the
second while the first is stored raises a `ValidationError`; the write is
blocked, never silently dropped. -/
theorem c4_uniqueness_clash_raises
    (kind : Nat → String) (db orders : List OP) (A B : OP)
    (hA : A ∈ db) (hB : B ∈ orders)
    (hwfA : opLocWF kind A) (hwfB : opLocWF kind B)
    (hid : A.id ≠ B.id) (hprod : A.product = B.product)
    (hcomp : A.company = B.company)
    (hmon : monitoredLocation A = monitoredLocation B) :
    validateRaises db orders = true := by
  have hml_int : ∀ x : OP, x.opType = OPType.internal →
      monitoredLocation x = x.storage_location := by
    intro x hx
    unfold monitoredLocation
    rw [hx]
    rfl
  have hml_pur : ∀ x : OP, x.opType = OPType.purchase →
      monitoredLocation x = x.warehouse_location := by
    intro x hx
    unfold monitoredLocation
    rw [hx]
    rfl
  -- the monitored location of B is a concrete id
  obtain ⟨v, hv⟩ : ∃ v, monitoredLocation B = some v := by
    rcases hBt : B.opType with _ | _
    · obtain ⟨s, hs, -⟩ := hwfB.2 hBt
      exact ⟨s, by rw [hml_int B hBt, hs]⟩
    · obtain ⟨w, hw, -⟩ := hwfB.1 hBt
      exact ⟨w, by rw [hml_pur B hBt, hw]⟩
  -- equal monitored locations force equal types: location kinds differ
  have htype : A.opType = B.opType := by
    rcases hAt : A.opType with _ | _ <;> rcases hBt : B.opType with _ | _
    · rfl
    · obtain ⟨s, hs, hks⟩ := hwfA.2 hAt
      obtain ⟨w, hw, hkw⟩ := hwfB.1 hBt
      rw [hml_int A hAt, hml_pur B hBt, hs, hw] at hmon
      cases hmon
      rw [hks] at hkw
      exact absurd hkw (by decide)
    · obtain ⟨w, hw, hkw⟩ := hwfA.1 hAt
      obtain ⟨s, hs, hks⟩ := hwfB.2 hBt
      rw [hml_pur A hAt, hml_int B hBt, hw, hs] at hmon
      cases hmon
      rw [hkw] at hks
      exact absurd hks (by decide)
    · rfl
  have hAfield : fieldOf A B.opType = some v := by
    rw [← htype]
    calc fieldOf A A.opType = monitoredLocation A := rfl
    _ = some v := by rw [hmon, hv]
  have hclause : uniqClause B A = true := by
    unfold uniqClause
    have hvB : fieldOf B B.opType = some v := hv
    rw [hvB]
    simp [hprod, hcomp, hAfield, bne_iff_ne, hid]
  have huniq : check_uniqueness db orders = true :=
    List.any_eq_true.mpr ⟨B, hB, List.any_eq_true.mpr ⟨A, hA, hclause⟩⟩
  simp [validateRaises, huniq]

/-- Location kinds for the validation witnesses. -/
def kindW : Nat → String := fun n => if n ≤ 10 then "storage" else "warehouse"

/-- Two internal order points monitoring the same (product, storage
location, company) with different ids. -/
def opU1 : OP :=
  { id := 1, opType := .internal, product := 5, warehouse_location := none,
    storage_location := some 3, provisioning_location := some 4,
    overflowing_location := none, min_quantity := none, target_quantity := 0,
    max_quantity := none, company := 9 }

def opU2 : OP :=
  { opU1 with id := 2 }

theorem c4_uniqueness_clash_raises_witness :
    (opU1 ∈ [opU1] ∧ opU2 ∈ [opU2] ∧ opLocWF kindW opU1 ∧ opLocWF kindW opU2 ∧
      opU1.id ≠ opU2.id ∧ opU1.product = opU2.product ∧
      opU1.company = opU2.company ∧
      monitoredLocation opU1 = monitoredLocation opU2) ∧
    validateRaises [opU1] [opU2] = true :=
  ⟨⟨by decide, by decide, ⟨by decide, by decide⟩, ⟨by decide, by decide⟩,
    by decide, by decide, by decide, by decide⟩,
    c4_uniqueness_clash_raises kindW [opU1] [opU2] opU1 opU2 (by decide) (by decide)
      ⟨by decide, by decide⟩ ⟨by decide, by decide⟩ (by decide) (by decide)
      (by decide) (by decide)⟩

/-! ### Claim C10 -/

/-- Claim C10: validating a single internal order point whose provisioning
(or overflowing) location equals its own storage location raises a
`ValidationError`: the concurrency search does not exclude the record being
validated, so the self-loop matches its own 2-cycle predicate even with no
second order point present. -/
theorem c10_self_loop_rejected
    (db orders : List OP) (op : OP) (hdb : op ∈ db) (hord : op ∈ orders)
    (hint : op.opType = OPType.internal) (s : Nat)
    (hs : op.storage_location = some s) (r : Role) (hr : roleField op r = some s) :
    validateRaises db orders = true := by
  have hin : op ∈ db.filter (fun o =>
      orders.any (fun p => p.id == o.id) && o.opType == OPType.internal) := by
    refine List.mem_filter.mpr ⟨hdb, ?_⟩
    have : (orders.any fun p => p.id == op.id) = true :=
      List.any_eq_true.mpr ⟨op, hord, beq_iff_eq.mpr rfl⟩
    simp [this, hint]
  have hclause : concClause op op r = true := by
    unfold concClause
    rw [hs, hr]
    simp [hint]
  have hconc : check_concurrent_internal db orders = true := by
    unfold check_concurrent_internal
    apply List.any_eq_true.mpr
    refine ⟨r, by rcases r with _ | _ <;> decide, ?_⟩
    apply List.any_eq_true.mpr
    refine ⟨op, hin, ?_⟩
    have hany : (db.any fun x => concClause op x r) = true :=
      List.any_eq_true.mpr ⟨op, hdb, hclause⟩
    simp [hr, hany]
  simp [validateRaises, hconc]

/-- An internal order point provisioning itself: storage location 3 equals
its provisioning location. -/
def opSelf : OP :=
  { id := 1, opType := .internal, product := 5, warehouse_location := none,
    storage_location := some 3, provisioning_location := some 3,
    overflowing_location := none, min_quantity := none, target_quantity := 0,
    max_quantity := none, company := 9 }

theorem c10_self_loop_rejected_witness :
    (opSelf ∈ [opSelf] ∧ opSelf.opType = OPType.internal ∧
      opSelf.storage_location = some 3 ∧
      roleField opSelf Role.provisioning = some 3) ∧
    validateRaises [opSelf] [opSelf] = true :=
  ⟨⟨by decide, by decide, by decide, by decide⟩,
    c10_self_loop_rejected [opSelf] [opSelf] opSelf (by decide) (by decide)
      (by decide) 3 (by decide) Role.provisioning (by decide)⟩

/-! ### Claim C5 -/

/-- Internal order point on product 5, company 9: storage 1, provisioned
from 3, overflowing to 2. -/
def opA5 : OP :=
  { id := 1, opType := .internal, product := 5, warehouse_location := none,
    storage_location := some 1, provisioning_location := some 3,
    overflowing_location := some 2, min_quantity := none, target_quantity := 0,
    max_quantity := none, company := 9 }

/-- Internal order point on product 5, company 9: storage 2, provisioned
from 1, overflowing to 4.  With `opA5` it forms a mixed-role 2-cycle:
`opA5.storage = opB5.provisioning` and `opB5.storage = opA5.overflowing`. -/
def opB5 : OP :=
  { id := 2, opType := .internal, product := 5, warehouse_location := none,
    storage_location := some 2, provisioning_location := some 1,
    overflowing_location := some 4, min_quantity := none, target_quantity := 0,
    max_quantity := none, company := 9 }

/-- Claim C5 counterexample: a 2-cycle that mixes the two roles — A's
storage location is B's provisioning location while B's storage location is
A's *overflowing* location, same product and company — is accepted by
validation: each role is checked only against itself, so validating either
record raises no error, contrary to the claim's
"provisioning-or-overflowing" on both sides. -/
theorem c5_mixed_role_two_cycle_not_rejected :
    (opA5.opType = OPType.internal ∧ opB5.opType = OPType.internal ∧
      opA5.product = opB5.product ∧ opA5.company = opB5.company ∧
      opB5.provisioning_location = opA5.storage_location ∧
      opA5.overflowing_location = opB5.storage_location) ∧
    validateRaises [opA5, opB5] [opA5] = false ∧
    validateRaises [opA5, opB5] [opB5] = false := by
  decide

/-- Claim C5 amended: for two internal order points A and B on the same
product and company whose storage locations are swapped with the *same*
directional role on both sides — A's storage equals B's role-r location and
B's storage equals A's role-r location, r being provisioning on both sides
or overflowing on both sides — validating either record raises a
`ValidationError`.  (Mixed-role 2-cycles are not rejected, see the
counterexample.) -/
theorem c5_same_role_two_cycle_raises
    (db orders : List OP) (A B : OP) (r : Role)
    (hAdb : A ∈ db) (hBdb : B ∈ db) (hBord : B ∈ orders)
    (hAint : A.opType = OPType.internal) (hBint : B.opType = OPType.internal)
    (hprod : A.product = B.product) (hcomp : A.company = B.company)
    (sA sB : Nat)
    (hsA : A.storage_location = some sA) (hsB : B.storage_location = some sB)
    (hAr : roleField A r = some sB) (hBr : roleField B r = some sA) :
    validateRaises db orders = true := by
  have hin : B ∈ db.filter (fun o =>
      orders.any (fun p => p.id == o.id) && o.opType == OPType.internal) := by
    refine List.mem_filter.mpr ⟨hBdb, ?_⟩
    have hany : (orders.any fun p => p.id == B.id) = true :=
      List.any_eq_true.mpr ⟨B, hBord, beq_iff_eq.mpr rfl⟩
    simp [hany, hBint]
  have hclause : concClause B A r = true := by
    unfold concClause
    rw [hsB, hBr]
    simp [hprod.symm, hcomp.symm, hAr, hsA, hAint]
  have hconc : check_concurrent_internal db orders = true := by
    unfold check_concurrent_internal
    apply List.any_eq_true.mpr
    refine ⟨r, by rcases r with _ | _ <;> decide, ?_⟩
    apply List.any_eq_true.mpr
    refine ⟨B, hin, ?_⟩
    have hany : (db.any fun x => concClause B x r) = true :=
      List.any_eq_true.mpr ⟨A, hAdb, hclause⟩
    simp [hBr, hany]
  simp [validateRaises, hconc]

/-- Same-role 2-cycle pair for the amended-claim witness: storage 1
provisioned from 2, and storage 2 provisioned from 1. -/
def opC5 : OP :=
  { id := 1, opType := .internal, product := 5, warehouse_location := none,
    storage_location := some 1, provisioning_location := some 2,
    overflowing_location := none, min_quantity := none, target_quantity := 0,
    max_quantity := none, company := 9 }

def opD5 : OP :=
  { id := 2, opType := .internal, product := 5, warehouse_location := none,
    storage_location := some 2, provisioning_location := some 1,
    overflowing_location := none, min_quantity := none, target_quantity := 0,
    max_quantity := none, company := 9 }

theorem c5_same_role_two_cycle_raises_witness :
    (opC5 ∈ [opC5, opD5] ∧ opD5 ∈ [opC5, opD5] ∧ opD5 ∈ [opD5] ∧
      opC5.opType = OPType.internal ∧ opD5.opType = OPType.internal ∧
      opC5.product = opD5.product ∧ opC5.company = opD5.company ∧
      opC5.storage_location = some 1 ∧ opD5.storage_location = some 2 ∧
      roleField opC5 Role.provisioning = some 2 ∧
      roleField opD5 Role.provisioning = some 1) ∧
    validateRaises [opC5, opD5] [opD5] = true :=
  ⟨⟨by decide, by decide, by decide, by decide, by decide, by decide, by decide,
    by decide, by decide, by decide, by decide⟩,
    c5_same_role_two_cycle_raises [opC5, opD5] [opD5] opC5 opD5 Role.provisioning
      (by decide) (by decide) (by decide) (by decide) (by decide) (by decide)
      (by decide) 1 2 (by decide) (by decide) (by decide) (by decide)⟩

/-! ### Claim C6 -/

/-- Claim C6's failing example: min 10, target 5. -/
def opC6fail : OP :=
  { id := 1, opType := .purchase, product := 5, warehouse_location := some 11,
    storage_location := none, provisioning_location := none,
    overflowing_location := none, min_quantity := some 10, target_quantity := 5,
    max_quantity := none, company := 9 }

/-- Claim C6's passing example: min 5, target 8, max 10. -/
def opC6ok : OP :=
  { id := 1, opType := .internal, product := 5, warehouse_location := none,
    storage_location := some 1, provisioning_location := some 2,
    overflowing_location := some 3, min_quantity := some 5, target_quantity := 8,
    max_quantity := some 10, company := 9 }

/-- Claim C6: an order point passing the declared quantity-field domains
satisfies `min_quantity ≤ target_quantity ≤ max_quantity` for every bound
that is defined; in particular min 10 / target 5 fails the domain check
while min 5 / target 8 / max 10 passes it. -/
theorem c6_bounds_ordering (op : OP) (h : boundsDomainOk op = true) :
    ((∀ m, op.min_quantity = some m → m ≤ op.target_quantity) ∧
      (∀ M, op.max_quantity = some M → op.target_quantity ≤ M)) ∧
    boundsDomainOk opC6fail = false ∧ boundsDomainOk opC6ok = true := by
  refine ⟨⟨?_, ?_⟩, by decide, by decide⟩
  · intro m hm
    unfold boundsDomainOk minQuantityDomain at h
    rw [hm] at h
    simp only [Bool.and_eq_true, decide_eq_true_eq] at h
    exact h.1.1
  · intro M hM
    unfold boundsDomainOk maxQuantityDomain at h
    rw [hM] at h
    simp only [Bool.and_eq_true, decide_eq_true_eq] at h
    exact h.2

theorem c6_bounds_ordering_witness :
    boundsDomainOk opC6ok = true ∧
    (((∀ m, opC6ok.min_quantity = some m → m ≤ opC6ok.target_quantity) ∧
      (∀ M, opC6ok.max_quantity = some M → opC6ok.target_quantity ≤ M)) ∧
    boundsDomainOk opC6fail = false ∧ boundsDomainOk opC6ok = true) :=
  ⟨by decide, c6_bounds_ordering opC6ok (by decide)⟩

/-! ### The recursive planner (`clean` flag, transit split, fixed point) -/

/-- The per-location contribution of one move. -/
def moveDelta (loc : Nat) (m : MoveRec) : Int :=
  (if m.to_location = loc then m.quantity else 0) -
    (if m.from_location = loc then m.quantity else 0)

/-- Net effect on a location of the planned moves dated on or before the
given date, for one product. -/
def moveEffect (mvs : List MoveRec) (date loc prod : Nat) : Int :=
  ((mvs.filter (fun m => m.planned_date ≤ date && m.product == prod)).map
    (moveDelta loc)).sum

/-- Modelled from the spec: the external forecast query
`Product.products_by_location(..., forecast=True, stock_date_end=date)`
(spec §4.2, §6; trytond stock module, not part of this repository).  The
forecast as of a date is a base forecast (everything outside the planner's
own request shipments) plus the net effect of the planned request moves
dated on or before that date. -/
def forecastWith (base : Nat → Nat → Nat → Int) (mvs : List MoveRec)
    (date loc prod : Nat) : Int :=
  base date loc prod + moveEffect mvs date loc prod

/-- All moves of a list of shipments. -/
def allMoves (st : List Shipment) : List MoveRec :=
  st.flatMap (fun s => s.moves)

/-- The fixed collaborators of one `generate_internal_shipment` run: the
order points and locations, the goods universe, the base forecast, today's
date, the maximal lead time, and the transit routing/lead-time tables of
the base stock module. -/
structure Env where
  ops : List IOP
  locTable : List Location
  allGoods : List Nat
  base : Nat → Nat → Nat → Int
  today : Nat
  lead : Nat
  transitOf : Nat → Nat → Option Nat
  leadTime : Nat → Nat → Nat

/-- One planner pass in a database state: the pass reads the forecast that
includes all moves of the shipments currently stored. -/
def runPass (env : Env) (st : List Shipment) : List Shipment :=
  generatePass env.ops env.locTable env.allGoods
    (forecastWith env.base (allMoves st)) env.today env.lead

/-- Modelled from the spec: `ShipmentInternal._set_transit` (base stock
module, not part of this repository; spec §4.3 post-pass): a shipment whose
route passes through a transit location has each move split into an early
leg into transit (dated at the planned start date, planned date minus the
lead time) and a final leg out of transit. -/
def setTransit (env : Env) (s : Shipment) : Shipment :=
  match env.transitOf s.from_location s.to_location with
  | none => s
  | some t =>
      { s with
        transit_location := some t
        moves := s.moves.flatMap (fun m =>
          [{ m with
             to_location := t
             planned_date := s.planned_date - env.leadTime s.from_location s.to_location },
           { m with from_location := t }]) }

/-- shipment.py ll. 161-163: after the recursive call returns, the moves of
this level's shipments whose origin is the shipment's transit location are
deleted. -/
def dropTransitMoves (s : Shipment) : Shipment :=
  { s with moves := s.moves.filter (fun m => some m.from_location != s.transit_location) }

/-- Apply the transit-move deletion to the window of this level's created
shipments (positions `[a, a + b)` of the database list; deeper recursion
levels only append and only modify their own windows). -/
def deleteLevelTransit (a b : Nat) (st : List Shipment) : List Shipment :=
  st.take a ++ ((st.drop a).take b).map dropTransitMoves ++ st.drop (a + b)

/-- shipment.py ll. 61-65: with `clean` set, all shipments in state
`request` are deleted before planning. -/
def cleanRequests (st : List Shipment) : List Shipment :=
  st.filter (fun s => s.state != "request")

/-- `generate_internal_shipment` as a database-state transformer
(shipment.py ll. 40-164): optionally clean, run one pass, save the created
shipments, split them through transit, recurse with `clean = False`, then
delete this level's transit-origin legs.  The recursion depth is bounded by
`fuel`; the source recurses unboundedly (see claim C2). -/
def genInternal (env : Env) : Nat → Bool → List Shipment → List Shipment
  | 0, clean, st =>
    let st1 := if clean then cleanRequests st else st
    let new := runPass env st1
    if new = [] then st1
    else
      let split := new.map (setTransit env)
      deleteLevelTransit st1.length split.length (st1 ++ split)
  | fuel + 1, clean, st =>
    let st1 := if clean then cleanRequests st else st
    let new := runPass env st1
    if new = [] then st1
    else
      let split := new.map (setTransit env)
      deleteLevelTransit st1.length split.length
        (genInternal env fuel false (st1 ++ split))

/-- One step of the pass chain: append the (transit-split) shipments the
pass creates in the current state. -/
def stepState (env : Env) (st : List Shipment) : List Shipment :=
  st ++ (runPass env st).map (setTransit env)

/-- The database state after `n` planner passes starting from `st0`. -/
def passStates (env : Env) (st0 : List Shipment) : Nat → List Shipment
  | 0 => st0
  | n + 1 => stepState env (passStates env st0 n)

/-- The recursion of `generate_internal_shipment` terminates from a state
iff some pass of the chain creates zero new shipments. -/
def TerminatesFrom (env : Env) (st0 : List Shipment) : Prop :=
  ∃ n, runPass env (passStates env st0 n) = []

/-! ### Lemmas about the recursive planner -/

lemma genInternal_succ_false (env : Env) (fuel : Nat) (st : List Shipment) :
    genInternal env (fuel + 1) false st =
      if runPass env st = [] then st
      else deleteLevelTransit st.length ((runPass env st).map (setTransit env)).length
        (genInternal env fuel false (st ++ (runPass env st).map (setTransit env))) := rfl

lemma genInternal_zero_false (env : Env) (st : List Shipment) :
    genInternal env 0 false st =
      if runPass env st = [] then st
      else deleteLevelTransit st.length ((runPass env st).map (setTransit env)).length
        (st ++ (runPass env st).map (setTransit env)) := rfl

/-- A clean run only differs from an unclean one by first deleting the
stored request shipments. -/
lemma genInternal_clean (env : Env) (fuel : Nat) (st : List Shipment) :
    genInternal env fuel true st = genInternal env fuel false (cleanRequests st) := by
  cases fuel <;> rfl

lemma genInternal_of_empty (env : Env) (fuel : Nat) (st : List Shipment)
    (h : runPass env st = []) : genInternal env fuel false st = st := by
  cases fuel
  · rw [genInternal_zero_false, if_pos h]
  · rw [genInternal_succ_false, if_pos h]

lemma passStates_shift (env : Env) (st : List Shipment) (n : Nat) :
    passStates env st (n + 1) = passStates env (stepState env st) n := by
  induction n with
  | zero => rfl
  | succ n ih =>
      show stepState env (passStates env st (n + 1)) = _
      rw [ih]
      rfl

lemma deleteLevelTransit_eq (st split rest : List Shipment) :
    deleteLevelTransit st.length split.length (st ++ (split ++ rest)) =
      st ++ (split.map dropTransitMoves ++ rest) := by
  unfold deleteLevelTransit
  rw [List.take_left, List.drop_left]
  rw [show st.length + split.length = (st ++ split).length from
    (List.length_append st split).symm]
  rw [List.take_left, ← List.append_assoc, List.drop_left, List.append_assoc]

/-- Once some pass of the chain creates zero shipments, additional
recursion depth no longer changes the result: the recursion has reached its
fixed point. -/
lemma genInternal_stable (env : Env) :
    ∀ (n : Nat) (st1 : List Shipment),
      runPass env (passStates env st1 n) = [] →
      ∀ k, genInternal env (n + k) false st1 = genInternal env n false st1 := by
  intro n
  induction n with
  | zero =>
      intro st1 h k
      have h0 : runPass env st1 = [] := h
      rw [genInternal_of_empty env _ _ h0, genInternal_of_empty env _ _ h0]
  | succ n ih =>
      intro st1 h k
      by_cases hnew : runPass env st1 = []
      · rw [genInternal_of_empty env _ _ hnew, genInternal_of_empty env _ _ hnew]
      · have hshift : runPass env (passStates env (stepState env st1) n) = [] := by
          rw [← passStates_shift]
          exact h
        have hk : n + 1 + k = (n + k) + 1 := by omega
        rw [hk, genInternal_succ_false, if_neg hnew, genInternal_succ_false, if_neg hnew]
        rw [show st1 ++ (runPass env st1).map (setTransit env) = stepState env st1 from rfl]
        rw [ih (stepState env st1) hshift k]

/-- The recursive planner only appends freshly created request shipments to
the state it was given. -/
lemma genInternal_false_append (env : Env) :
    ∀ (fuel : Nat) (st : List Shipment), ∃ tail,
      genInternal env fuel false st = st ++ tail ∧
      ∀ s ∈ tail, s.state = "request" := by
  have hpass : ∀ st s, s ∈ (runPass env st).map (setTransit env) → s.state = "request" := by
    intro st s hs
    rcases List.mem_map.mp hs with ⟨u, hu, rfl⟩
    have hst : (setTransit env u).state = u.state := by
      unfold setTransit
      rcases env.transitOf u.from_location u.to_location with _ | t <;> rfl
    rw [hst]
    obtain ⟨k, -, hk⟩ := mem_generatePass.mp hu
    exact (mem_dayShipments_planned_date hk).2
  intro fuel
  induction fuel with
  | zero =>
      intro st
      by_cases h : runPass env st = []
      · exact ⟨[], by rw [genInternal_zero_false, if_pos h, List.append_nil], by simp⟩
      · refine ⟨((runPass env st).map (setTransit env)).map dropTransitMoves, ?_, ?_⟩
        · rw [genInternal_zero_false, if_neg h]
          rw [show st ++ (runPass env st).map (setTransit env) =
              st ++ ((runPass env st).map (setTransit env) ++ []) by
            rw [List.append_nil]]
          rw [deleteLevelTransit_eq, List.append_nil]
        · intro s hs
          rcases List.mem_map.mp hs with ⟨u, hu, rfl⟩
          have : (dropTransitMoves u).state = u.state := rfl
          rw [this]
          exact hpass st u hu
  | succ fuel ih =>
      intro st
      by_cases h : runPass env st = []
      · exact ⟨[], by rw [genInternal_succ_false, if_pos h, List.append_nil], by simp⟩
      · obtain ⟨tail, htail, hreq⟩ := ih (st ++ (runPass env st).map (setTransit env))
        refine ⟨((runPass env st).map (setTransit env)).map dropTransitMoves ++ tail,
          ?_, ?_⟩
        · rw [genInternal_succ_false, if_neg h, htail, List.append_assoc,
            deleteLevelTransit_eq]
        · intro s hs
          rcases List.mem_append.mp hs with hs | hs
          · rcases List.mem_map.mp hs with ⟨u, hu, rfl⟩
            have : (dropTransitMoves u).state = u.state := rfl
            rw [this]
            exact hpass st u hu
          · exact hreq s hs

lemma cleanRequests_append (a b : List Shipment) :
    cleanRequests (a ++ b) = cleanRequests a ++ cleanRequests b := by
  simp [cleanRequests, List.filter_append]

lemma cleanRequests_of_requests (tail : List Shipment)
    (h : ∀ s ∈ tail, s.state = "request") : cleanRequests tail = [] := by
  unfold cleanRequests
  rw [List.filter_eq_nil_iff]
  intro s hs
  simp [h s hs]

lemma cleanRequests_idem (st : List Shipment) :
    cleanRequests (cleanRequests st) = cleanRequests st := by
  apply List.filter_eq_self.mpr
  intro s hs
  exact (List.mem_filter.mp hs).2

/-! ### Claim C3 -/

/-- Claim C3: a run with `clean = true` deletes every stored request-state
shipment before planning — prior requests are irrelevant to the result —
and running the planner twice in a row with `clean = true` on unchanged
inputs produces the identical shipment state both times: old requests are
fully replaced, never accumulated. -/
theorem c3_clean_run_idempotent (env : Env) (fuel : Nat) (st : List Shipment) :
    genInternal env fuel true st = genInternal env fuel true (cleanRequests st) ∧
    genInternal env fuel true (genInternal env fuel true st) =
      genInternal env fuel true st := by
  constructor
  · rw [genInternal_clean, genInternal_clean, cleanRequests_idem]
  · obtain ⟨tail, htail, hreq⟩ := genInternal_false_append env fuel (cleanRequests st)
    rw [genInternal_clean env fuel st, htail]
    rw [genInternal_clean env fuel (cleanRequests st ++ tail)]
    rw [cleanRequests_append, cleanRequests_of_requests tail hreq, List.append_nil,
      cleanRequests_idem]
    exact htail

/-! ### Claim C2 -/

/-- Claim C2 (amended): whenever some pass of the chain started from the
(cleaned) state creates zero new shipments, the recursion of
`generate_internal_shipment` reaches that fixed point: a deep enough
recursion depth exists past which extra depth no longer changes the
resulting state.  (Unconditional termination is false: see the 3-cycle
counterexample.) -/
theorem c2_recursion_reaches_fixed_point (env : Env) (st : List Shipment) (clean : Bool)
    (h : TerminatesFrom env (if clean then cleanRequests st else st)) :
    ∃ fuel, ∀ k, genInternal env (fuel + k) clean st = genInternal env fuel clean st := by
  obtain ⟨n, hn⟩ := h
  refine ⟨n, fun k => ?_⟩
  cases clean
  · exact genInternal_stable env n st hn k
  · rw [genInternal_clean, genInternal_clean]
    exact genInternal_stable env n (cleanRequests st) hn k

/-- An environment with no order points and no locations: the first pass
creates nothing, so the planner terminates at once. -/
def envT : Env :=
  { ops := [], locTable := [], allGoods := [], base := fun _ _ _ => 0,
    today := 0, lead := 0, transitOf := fun _ _ => none, leadTime := fun _ _ => 0 }

theorem c2_recursion_reaches_fixed_point_witness :
    TerminatesFrom envT (if true then cleanRequests [] else []) ∧
    ∃ fuel, ∀ k, genInternal envT (fuel + k) true [] = genInternal envT fuel true [] :=
  ⟨⟨0, by decide⟩, c2_recursion_reaches_fixed_point envT [] true ⟨0, by decide⟩⟩

/-- An internal order point of the 3-cycle example: product 7, min and max
both 10. -/
def iop3 (s p : Nat) : IOP :=
  { product := 7, storage_location := s, provisioning_location := p,
    min_quantity := 10, max_quantity := 10 }

/-- Three internal order points whose provisioning locations form a 3-cycle
0 ← 1 ← 2 ← 0 on one product, all stocks at zero.  The concurrency
validation of order_point.py only rejects 2-cycles, so this configuration
is storable. -/
def env3 : Env :=
  { ops := [iop3 0 1, iop3 1 2, iop3 2 0],
    locTable := [⟨0, none⟩, ⟨1, none⟩, ⟨2, none⟩],
    allGoods := [7], base := fun _ _ _ => 0, today := 0, lead := 0,
    transitOf := fun _ _ => none, leadTime := fun _ _ => 0 }

lemma setTransit_env3 (s : Shipment) : setTransit env3 s = s := rfl

lemma map_setTransit_env3 (l : List Shipment) : l.map (setTransit env3) = l := by
  induction l with
  | nil => rfl
  | cons a t ih => rw [List.map_cons, setTransit_env3, ih]

lemma allMoves_append (a b : List Shipment) :
    allMoves (a ++ b) = allMoves a ++ allMoves b := by
  simp [allMoves, List.flatMap_append]

lemma moveEffect_append (xs ys : List MoveRec) (d l p : Nat) :
    moveEffect (xs ++ ys) d l p = moveEffect xs d l p + moveEffect ys d l p := by
  simp [moveEffect, List.filter_append]

/-- Every move of the pass feeds 10 units into one cycle location and takes
10 units out of another, so each pass block has zero net effect
everywhere. -/
lemma env3_block_effect (d l p : Nat) :
    moveEffect (allMoves (runPass env3 [])) d l p = 0 := by
  have hB : allMoves (runPass env3 []) =
      [MoveRec.mk 1 0 0 7 10, MoveRec.mk 2 1 0 7 10, MoveRec.mk 0 2 0 7 10] := by
    decide
  rw [hB]
  by_cases hp : (7 : Nat) = p
  · subst hp
    simp only [moveEffect, List.filter]
    norm_num
    simp only [moveDelta]
    split_ifs <;> omega
  · simp only [moveEffect, List.filter]
    have h7 : ((7 : Nat) == p) = false := by
      simp [hp]
    simp [h7]

lemma env3_effect_zero :
    ∀ n, ∀ d l p, moveEffect (allMoves (passStates env3 [] n)) d l p = 0 := by
  intro n
  induction n with
  | zero => intro d l p; rfl
  | succ n ih =>
      have hfc : forecastWith env3.base (allMoves (passStates env3 [] n)) =
          forecastWith env3.base (allMoves ([] : List Shipment)) := by
        funext d l p
        show env3.base d l p + _ = env3.base d l p + _
        rw [ih d l p]
        rfl
      have hrp : runPass env3 (passStates env3 [] n) = runPass env3 [] := by
        unfold runPass
        rw [hfc]
      intro d l p
      show moveEffect (allMoves (stepState env3 (passStates env3 [] n))) d l p = 0
      unfold stepState
      rw [hrp, map_setTransit_env3, allMoves_append, moveEffect_append, ih d l p,
        env3_block_effect d l p]
      rfl

lemma env3_runPass_const (n : Nat) :
    runPass env3 (passStates env3 [] n) = runPass env3 [] := by
  have hfc : forecastWith env3.base (allMoves (passStates env3 [] n)) =
      forecastWith env3.base (allMoves ([] : List Shipment)) := by
    funext d l p
    show env3.base d l p + _ = env3.base d l p + _
    rw [env3_effect_zero n d l p]
    rfl
  unfold runPass
  rw [hfc]

/-- Claim C2 counterexample: in the 3-cycle configuration `env3` every pass
creates the same three nonempty shipments (each pass's moves cancel out in
the forecast), so the invocation chain never reaches a pass that creates
zero new shipments — the recursion of `generate_internal_shipment` does not
terminate. -/
theorem c2_three_cycle_never_terminates : ¬ TerminatesFrom env3 [] := by
  rintro ⟨n, hn⟩
  rw [env3_runPass_const n] at hn
  exact absurd hn (by decide)

/-! ### Claim C7 -/

/-- stock.py ll. 80-87, applied per request shipment at the end of the
supply run: delete the moves whose origin is the shipment's transit
location, then re-point every remaining move to run directly from the
shipment's `from_location` to its `to_location` on its `planned_date`
(`Move.write` touches no other field, so quantities are untouched). -/
def collapseShipment (s : Shipment) : Shipment :=
  { s with
    moves := (s.moves.filter (fun m => some m.from_location != s.transit_location)).map
      (fun m =>
        { m with
          from_location := s.from_location
          to_location := s.to_location
          planned_date := s.planned_date }) }

/-- The transit-split removal of `Supply.transition_create_`
(stock.py ll. 75-87): every shipment found in state `request` is
collapsed. -/
def removeTransitSplit (st : List Shipment) : List Shipment :=
  st.map (fun s => if s.state = "request" then collapseShipment s else s)

/-- Claim C7: after the final transit-split removal, a request-state
shipment whose endpoints differ from its transit location contains no move
originating at that transit location: the transit legs are deleted and the
surviving moves all run directly from the shipment's `from_location` to its
`to_location` on its planned date, with the originally planned quantities
preserved move for move. -/
theorem c7_transit_collapse (st : List Shipment) (s0 : Shipment)
    (hs : s0 ∈ st) (hreq : s0.state = "request")
    (hft : some s0.from_location ≠ s0.transit_location) :
    collapseShipment s0 ∈ removeTransitSplit st ∧
    (∀ m ∈ (collapseShipment s0).moves,
      some m.from_location ≠ (collapseShipment s0).transit_location ∧
      m.from_location = s0.from_location ∧ m.to_location = s0.to_location ∧
      m.planned_date = s0.planned_date) ∧
    (collapseShipment s0).moves.map (fun m => m.quantity) =
      (s0.moves.filter (fun m => some m.from_location != s0.transit_location)).map
        (fun m => m.quantity) := by
  refine ⟨?_, ?_, ?_⟩
  · unfold removeTransitSplit
    apply List.mem_map.mpr
    exact ⟨s0, hs, by rw [if_pos hreq]⟩
  · intro m hm
    have hmm : m ∈ (s0.moves.filter
        (fun m => some m.from_location != s0.transit_location)).map
        (fun m =>
          { m with
            from_location := s0.from_location
            to_location := s0.to_location
            planned_date := s0.planned_date }) := hm
    rcases List.mem_map.mp hmm with ⟨u, -, rfl⟩
    exact ⟨hft, rfl, rfl, rfl⟩
  · show ((s0.moves.filter _).map _).map _ = _
    rw [List.map_map]
    rfl

/-- A request shipment from 1 to 2 through transit 5, with a direct leg and
a transit leg. -/
def shipW7 : Shipment :=
  { from_location := 1, to_location := 5, planned_date := 4, state := "request",
    transit_location := some 5,
    moves := [MoveRec.mk 1 5 2 7 10, MoveRec.mk 5 2 4 7 10] }

theorem c7_transit_collapse_witness :
    (shipW7 ∈ [shipW7] ∧ shipW7.state = "request" ∧
      some shipW7.from_location ≠ shipW7.transit_location) ∧
    (collapseShipment shipW7 ∈ removeTransitSplit [shipW7] ∧
    (∀ m ∈ (collapseShipment shipW7).moves,
      some m.from_location ≠ (collapseShipment shipW7).transit_location ∧
      m.from_location = shipW7.from_location ∧ m.to_location = shipW7.to_location ∧
      m.planned_date = shipW7.planned_date) ∧
    (collapseShipment shipW7).moves.map (fun m => m.quantity) =
      (shipW7.moves.filter (fun m => some m.from_location != shipW7.transit_location)).map
        (fun m => m.quantity)) :=
  ⟨⟨by decide, by decide, by decide⟩,
    c7_transit_collapse [shipW7] shipW7 (by decide) (by decide) (by decide)⟩

/-! ### Claim C9 -/

/-- The keyword parameters accepted by
`ShipmentInternal.generate_internal_shipment` (shipment.py l. 41:
`def generate_internal_shipment(cls, clean=True)`). -/
def generate_internal_shipment_kwparams : List String := ["clean"]

/-- The keyword arguments passed by `Supply.generate_internal`
(stock.py ll. 99-100:
`generate_internal_shipment(clean=clean, warehouses=warehouses)`). -/
def generate_internal_call_kwargs : List String := ["clean", "warehouses"]

/-- The warehouse subset resolution of `Supply.generate_internal`
(stock.py ll. 95-98): the start form's warehouses when configured,
otherwise `None` — all warehouses. -/
def supplyWarehouses (startWarehouses : List Nat) : Option (List Nat) :=
  if startWarehouses ≠ [] then some startWarehouses else none

/-- Claim C9 evaluation at the failing input: `Supply.generate_internal`
resolves the optional warehouse subset and forwards it as a `warehouses`
keyword argument, but the signature of
`ShipmentInternal.generate_internal_shipment` accepts only `clean`, so
every invocation — with or without a configured subset — raises `TypeError`
instead of restricting generation to that subset. -/
theorem c9_warehouses_kwarg_not_accepted :
    supplyWarehouses [] = none ∧ supplyWarehouses [3] = some [3] ∧
    "warehouses" ∈ generate_internal_call_kwargs ∧
    "warehouses" ∉ generate_internal_shipment_kwparams := by
  refine ⟨rfl, rfl, by decide, by decide⟩
